import Mathlib

/-!
Shallow embedding of `src/backend.py`, a Flask service that generates a
synthetic user dataset once and serves it through a paginated,
searchable, sortable listing endpoint, plus count and readiness
endpoints.  Pure functions of the Python source are translated to Lean
functions; the module-level globals (`_USERS`, `_GENERATED`) become an
explicit server state threaded through the endpoint handlers.  The
dataset size `TOTAL_USERS` is a module constant in the source; the
embedding takes the configured target `n` as a parameter so that the
theorems cover the configured value and witnesses can evaluate on small
instances.
-/

namespace Backend

/-- The size of the dataset in the source (`TOTAL_USERS = 1_000_000`). -/
def TOTAL_USERS : ℕ := 1000000

/-- Values drawn from the shared random source while building one
record: the output of `random_name`, the ten digits chosen in
`random_phone`, the domain chosen in `random_email`, the output of
`random_score`, the timestamp text of `random_last_message_at`, and the
output of `random_added_by`.  Their concrete values are
non-deterministic fillers, so the embedding abstracts the random source
as an oracle supplying them. -/
structure RandomDraw where
  nameDraw : String
  phoneDigits : String
  domain : String
  scoreDraw : ℚ
  lastMessageDraw : String
  addedByDraw : String
deriving DecidableEq, Repr

/-- Python `random_phone()`: the text `+1` followed by the ten drawn digits. -/
def random_phone (d : RandomDraw) : String := "+1" ++ d.phoneDigits

/-- Python `str.lower()`.  The generated text is ASCII, so the ASCII
`Char.toLower` is an exact model on every value that occurs. -/
def lowerStr (s : String) : String :=
  String.mk (s.toList.map Char.toLower)

/-- Python `str.strip()` with no argument: surrounding whitespace
removed from both ends. -/
def stripStr (s : String) : String :=
  String.mk
    (((s.toList.dropWhile Char.isWhitespace).reverse.dropWhile Char.isWhitespace).reverse)

/-- Python `random_email(name, uid)`: the alphanumeric characters of the
lowercased name truncated to 12 (defaulting to `user` when empty),
then a dot, the uid, an at sign and the drawn domain. -/
def random_email (d : RandomDraw) (name : String) (uid : ℕ) : String :=
  let safe0 := String.mk (((lowerStr name).toList.filter Char.isAlphanum).take 12)
  let safe := if safe0 = "" then "user" else safe0
  safe ++ "." ++ toString uid ++ "@" ++ d.domain

/-- Python `random_avatar(uid)`: a pravatar URL whose image index is
`uid % 70 + 1`. -/
def random_avatar (uid : ℕ) : String :=
  "https://i.pravatar.cc/150?img=" ++ toString (uid % 70 + 1)

/-- One record as built by `generate_user` (a Python dict with eight
keys).  `score` is a Python float produced by `random_score`; the code
only ever compares scores, so the value is modelled as a rational. -/
structure User where
  id : ℕ
  name : String
  phone : String
  email : String
  score : ℚ
  lastMessageAt : String
  addedBy : String
  avatar : String
deriving DecidableEq, Repr

/-- Python `generate_user(uid)`: assembles the record dict from the drawn
values; the `id` field is always the given uid. -/
def generate_user (d : RandomDraw) (uid : ℕ) : User :=
  let name := d.nameDraw
  { id := uid
    name := name
    phone := random_phone d
    email := random_email d name uid
    score := d.scoreDraw
    lastMessageAt := d.lastMessageDraw
    addedBy := d.addedByDraw
    avatar := random_avatar uid }

/-- A JSON value as appearing in a serialized record. -/
inductive JValue
  | jint (n : ℕ)
  | jnum (q : ℚ)
  | jstr (s : String)
deriving DecidableEq, Repr

/-- The JSON object serialized for one record: the dict literal of
`generate_user` in insertion order (key, value). -/
def userJson (u : User) : List (String × JValue) :=
  [("id", .jint u.id), ("name", .jstr u.name), ("phone", .jstr u.phone),
   ("email", .jstr u.email), ("score", .jnum u.score),
   ("lastMessageAt", .jstr u.lastMessageAt), ("addedBy", .jstr u.addedBy),
   ("avatar", .jstr u.avatar)]

/-- Python `needle in haystack` on strings: contiguous substring. -/
def strIn (needle haystack : String) : Prop :=
  needle.toList <:+: haystack.toList

instance (s t : String) : Decidable (strIn s t) :=
  List.decidableInfix s.toList t.toList

/-- The body of `match(u)` inside `apply_search_filter`, applied to the
already stripped and lowercased needle `s`. -/
def matchUser (s : String) (u : User) : Bool :=
  decide (strIn s (lowerStr u.name)) || decide (strIn s (lowerStr u.email)) ||
    decide (strIn s (lowerStr u.phone))

/-- Python `apply_search_filter(data, search)`: empty search returns the data
unchanged; otherwise the search text is stripped of surrounding
whitespace, lowercased, and tested as a substring of the lowercased
`name`, `email` and `phone` fields. -/
def apply_search_filter (data : List User) (search : String) : List User :=
  if search = "" then data
  else data.filter (matchUser (lowerStr (stripStr search)))

/-- The comparison key produced by the `keyfn` lambdas in `apply_sort`:
an int, a float, or a string. -/
inductive SortKey
  | kNat (n : ℕ)
  | kRat (q : ℚ)
  | kStr (s : String)
deriving DecidableEq, Repr

/-- The `keyfn` lambdas of `apply_sort`: `id` and `score` are taken raw,
`lastMessageAt` is taken raw, the four text fields are lowercased, and
any other key falls back to `u.get(sort_by, "")`, which on this dict is
the `avatar` string for `avatar` and `""` otherwise (the keyed fields
are all caught by the earlier branches). -/
def keyfn (sort_by : String) (u : User) : SortKey :=
  if sort_by = "id" then .kNat u.id
  else if sort_by = "score" then .kRat u.score
  else if sort_by = "lastMessageAt" then .kStr u.lastMessageAt
  else if sort_by = "name" then .kStr (lowerStr u.name)
  else if sort_by = "email" then .kStr (lowerStr u.email)
  else if sort_by = "phone" then .kStr (lowerStr u.phone)
  else if sort_by = "addedBy" then .kStr (lowerStr u.addedBy)
  else if sort_by = "avatar" then .kStr u.avatar
  else .kStr ""

/-- Python `<=` on strings: lexicographic by code point. -/
def lexLe : List Char → List Char → Bool
  | [], _ => true
  | _ :: _, [] => false
  | a :: as, b :: bs =>
    if a < b then true else if b < a then false else lexLe as bs

/-- Python `<=` on two keys of the same shape; keys of distinct shapes
never meet in one sort because `keyfn sort_by` has a uniform shape. -/
def SortKey.leb : SortKey → SortKey → Bool
  | .kNat a, .kNat b => a ≤ b
  | .kRat a, .kRat b => decide (a ≤ b)
  | .kStr a, .kStr b => lexLe a.toList b.toList
  | _, _ => false

/-- The precedence relation of an ascending `list.sort(key=keyfn)`. -/
def userLe (k : String) (a b : User) : Prop :=
  SortKey.leb (keyfn k a) (keyfn k b) = true

instance (k : String) : DecidableRel (userLe k) := fun a b =>
  inferInstanceAs (Decidable (_ = true))

/-- The precedence relation with `reverse=True`: Python sorts as if
each comparison were reversed, still keeping ties in original order. -/
def userGe (k : String) (a b : User) : Prop :=
  SortKey.leb (keyfn k b) (keyfn k a) = true

instance (k : String) : DecidableRel (userGe k) := fun a b =>
  inferInstanceAs (Decidable (_ = true))

/-- Python `apply_sort(data, sort_by, sort_order)`: a falsy `sort_by` returns
the data unchanged; otherwise Python's stable `list.sort` runs with
`keyfn` and `reverse = (sort_order == "desc")`.  A stable sort by a
total preorder has a unique result, so the stable `insertionSort`
models it exactly.  The surrounding `try/except` never fires here
because `keyfn sort_by` yields a uniform, comparable key shape. -/
def apply_sort (data : List User) (sort_by : Option String) (sort_order : String) :
    List User :=
  match sort_by with
  | none => data
  | some k =>
    if k = "" then data
    else if sort_order = "desc" then data.insertionSort (userGe k)
    else data.insertionSort (userLe k)

/-- Python slice `l[i:j]` (step 1) with int bounds: a negative bound
counts from the end, then both bounds are clamped to `[0, len]`. -/
def pySlice {α : Type} (l : List α) (i j : ℤ) : List α :=
  let n : ℤ := l.length
  let i' : ℤ := if i < 0 then max (n + i) 0 else min i n
  let j' : ℤ := if j < 0 then max (n + j) 0 else min j n
  (l.take j'.toNat).drop i'.toNat

/-- Digit-run parser for Python `int`: a digit sets the flag, an
underscore is legal only directly after a digit and must be followed by
more digits, and the run must end on a digit. -/
def pyDigitsAux : Bool → ℕ → List Char → Option ℕ
  | pd, acc, [] => if pd then some acc else none
  | pd, acc, c :: cs =>
    if c.isDigit then pyDigitsAux true (10 * acc + (c.toNat - 48)) cs
    else if c = '_' then (if pd then pyDigitsAux false acc cs else none)
    else none

/-- Python `int(str)`: surrounding whitespace is stripped, an optional
sign precedes a non-empty digit run (single underscores may separate
digits); `none` models a raised `ValueError`. -/
def pyInt? (s : String) : Option ℤ :=
  match (stripStr s).toList with
  | [] => none
  | '+' :: rest => (pyDigitsAux false 0 rest).map Int.ofNat
  | '-' :: rest => (pyDigitsAux false 0 rest).map fun m => -(m : ℤ)
  | l => (pyDigitsAux false 0 l).map Int.ofNat

/-- The query parameters of one `/api/users` request, as raw strings
(`none` models an absent parameter). -/
structure Params where
  page : Option String := none
  limit : Option String := none
  search : Option String := none
  sort_by : Option String := none
  sort_order : Option String := none
deriving DecidableEq, Repr

/-- The `page` value as computed in `get_users`: `int(request.args.get("page", 1))`
with a `ValueError` defaulting to 1; no further normalization. -/
def parsedPage (p : Params) : ℤ :=
  match p.page with
  | none => 1
  | some s => (pyInt? s).getD 1

/-- The `limit` value as computed in `get_users`: parsed with default 30, then
reset to 30 when outside `(0, 1000]`. -/
def parsedLimit (p : Params) : ℤ :=
  let l : ℤ :=
    match p.limit with
    | none => 30
    | some s => (pyInt? s).getD 30
  if l ≤ 0 ∨ l > 1000 then 30 else l

/-- The `sort_order` value: lowercased, reset to `asc` unless it is `asc` or
`desc`. -/
def parsedSortOrder (p : Params) : String :=
  let so := lowerStr (p.sort_order.getD "asc")
  if so = "asc" ∨ so = "desc" then so else "asc"

/-- Python truthiness of the optional `search`/`sort_by` strings. -/
def optActive : Option String → Bool
  | none => false
  | some s => s ≠ ""

/-- The filtered set of `get_users`: `apply_search_filter` when
`search` is truthy, else the full view. -/
def filteredUsers (data : List User) (p : Params) : List User :=
  if optActive p.search then apply_search_filter data (p.search.getD "") else data

/-- The `total` value as reported by `get_users`: the filtered count when
searching, else the constant `TOTAL_USERS` (target `n`). -/
def totalField (n : ℕ) (data : List User) (p : Params) : ℕ :=
  if optActive p.search then (filteredUsers data p).length else n

/-- The `working` list in `get_users`: when `sort_by` is truthy the code sorts
the fresh copy `list(filtered)` in place, leaving the global list
untouched; otherwise the filtered set is used as is. -/
def workingUsers (data : List User) (p : Params) : List User :=
  if optActive p.sort_by then
    apply_sort (filteredUsers data p) p.sort_by (parsedSortOrder p)
  else filteredUsers data p

/-- The JSON body answered by `/api/users`. -/
structure Response where
  page : ℤ
  limit : ℤ
  total : ℕ
  items : List User
deriving DecidableEq, Repr

/-- The `get_users` query run against an available dataset view `data` with
configured target `n`: parse parameters, filter, sort (on a copy),
then slice `[start_idx, end_idx)` with Python slice semantics. -/
def get_users_view (n : ℕ) (data : List User) (p : Params) : Response :=
  let page := parsedPage p
  let limit := parsedLimit p
  { page := page
    limit := limit
    total := totalField n data p
    items := pySlice (workingUsers data p) ((page - 1) * limit) ((page - 1) * limit + limit) }

/-- The module globals `_USERS` and `_GENERATED`. -/
structure ServerState where
  users : Option (List User)
  generated : Bool
deriving DecidableEq, Repr

/-- The state at import time: `_USERS = None`, `_GENERATED = False`. -/
def initState : ServerState := { users := none, generated := false }

/-- The dataset built by the generation loop: slot `i` holds
`generate_user(i + 1)` (the chunking of the loop only affects progress
logging). -/
def build_users (n : ℕ) (g : ℕ → RandomDraw) : List User :=
  (List.range n).map fun i => generate_user (g (i + 1)) (i + 1)

/-- Python `generate_users_once()`: under the lock, return if `_GENERATED`;
otherwise build the complete local list and only then publish it to
`_USERS` and set `_GENERATED`. -/
def generate_users_once (n : ℕ) (g : ℕ → RandomDraw) (s : ServerState) : ServerState :=
  if s.generated then s
  else { users := some (build_users n g), generated := true }

/-- The `/api/users` handler: when `_USERS is None` it first runs
`generate_users_once` synchronously; the defensive branch for a still
missing dataset answers an empty page with `total = TOTAL_USERS`;
otherwise the query runs on the local reference `data = _USERS`. -/
def get_users_endpoint (n : ℕ) (g : ℕ → RandomDraw) (s : ServerState) (p : Params) :
    Response × ServerState :=
  let s1 := if s.users = none then generate_users_once n g s else s
  match s1.users with
  | none =>
    ({ page := parsedPage p, limit := parsedLimit p, total := n, items := [] }, s1)
  | some data => (get_users_view n data p, s1)

/-- The `/health` handler: status text and `total_expected`. -/
def health (n : ℕ) (s : ServerState) : String × ℕ :=
  (if s.generated then "ready" else "generating", n)

/-- The `/api/users/count` handler: always the target count. -/
def users_count (n : ℕ) : ℕ := n

/-- One externally triggered server action: the background generation
thread body spawned by `maybe_generate`, a listing request, a health
probe, or a count request. -/
inductive Op
  | genOp
  | queryOp (p : Params)
  | healthOp
  | countOp
deriving DecidableEq, Repr

/-- Effect of one action on the module globals (health and count are
read-only). -/
def step (n : ℕ) (g : ℕ → RandomDraw) (s : ServerState) : Op → ServerState
  | .genOp => generate_users_once n g s
  | .queryOp p => (get_users_endpoint n g s p).2
  | .healthOp => s
  | .countOp => s

/-- Run a sequence of server actions from a state. -/
def execOps (n : ℕ) (g : ℕ → RandomDraw) (s : ServerState) (ops : List Op) : ServerState :=
  ops.foldl (step n g) s

/-- States reachable from import time: the globals are untouched, or
the complete generated dataset has been published together with the
flag. -/
def goodState (n : ℕ) (g : ℕ → RandomDraw) (s : ServerState) : Prop :=
  (s.users = none ∧ s.generated = false) ∨
    (s.users = some (build_users n g) ∧ s.generated = true)

/-- The filter predicate exactly as claim C2 words it: the raw search
text itself is tested case-insensitively as a substring of `name`,
`email` and `phone`, with no whitespace stripping.  Stated from the
claim's words, to be compared with `apply_search_filter`. -/
def claimMatchRaw (s : String) (u : User) : Bool :=
  decide (strIn (lowerStr s) (lowerStr u.name)) ||
    decide (strIn (lowerStr s) (lowerStr u.email)) ||
    decide (strIn (lowerStr s) (lowerStr u.phone))

/-- A fixed draw for concrete test records. -/
def draw1 : RandomDraw :=
  { nameDraw := "Alex Patel", phoneDigits := "5550100234",
    domain := "example.com", scoreDraw := 10,
    lastMessageDraw := "2025-01-15T12:00:00Z", addedByDraw := "admin" }

/-- The five scores of the worked example in the spec. -/
def c1Scores : List ℚ := [10, 30, 20, 30, 5]

/-- Draws realizing the worked example: record `uid` gets score
`c1Scores[uid - 1]`. -/
def c1Gen (uid : ℕ) : RandomDraw :=
  { draw1 with scoreDraw := c1Scores.getD (uid - 1) 0 }

/-- The five-record dataset of the worked example (ids 1..5, scores
10, 30, 20, 30, 5). -/
def c1Data : List User := build_users 5 c1Gen

/-- The worked example's query: `sort_by=score&sort_order=asc&page=1&limit=3`. -/
def c1Params : Params :=
  { page := some "1", limit := some "3", sort_by := some "score",
    sort_order := some "asc" }

/-- A record whose fields contain the letter `z` but never a space
followed by `z`. -/
def lizUser : User :=
  generate_user { draw1 with nameDraw := "Liz Chen" } 1

/-- A draw with a prescribed timestamp text. -/
def tsDraw (ts : String) : RandomDraw :=
  { draw1 with lastMessageDraw := ts }

/-- Two records whose timestamps are in strictly decreasing order. -/
def c4Data : List User :=
  [generate_user (tsDraw "2025-06-01T00:00:00Z") 1,
   generate_user (tsDraw "2024-01-01T00:00:00Z") 2]

/-- A query sorting by the spec's key name `lastActivityAt`. -/
def c4Params : Params := { sort_by := some "lastActivityAt" }

/-- A single generated record for the pagination counterexample. -/
def c6User : User := generate_user draw1 1

/-! ## Helper lemmas -/

theorem lexLe_total : ∀ s t : List Char, lexLe s t = true ∨ lexLe t s = true
  | [], _ => Or.inl rfl
  | _ :: _, [] => Or.inr rfl
  | a :: as, b :: bs => by
    rcases lt_trichotomy a b with h | h | h
    · left
      simp [lexLe, h]
    · subst h
      rcases lexLe_total as bs with ih | ih
      · left
        simp [lexLe, lt_irrefl, ih]
      · right
        simp [lexLe, lt_irrefl, ih]
    · right
      simp [lexLe, h]

theorem lexLe_trans : ∀ (s t u : List Char),
    lexLe s t = true → lexLe t u = true → lexLe s u = true
  | [], _, _, _, _ => rfl
  | _ :: _, [], _, h, _ => by simp [lexLe] at h
  | _ :: _, _ :: _, [], _, h => by simp [lexLe] at h
  | a :: as, b :: bs, c :: cs, h1, h2 => by
    simp only [lexLe] at h1 h2 ⊢
    rcases lt_trichotomy a b with hab | hab | hab
    · rcases lt_trichotomy b c with hbc | hbc | hbc
      · simp [lt_trans hab hbc]
      · subst hbc
        simp [hab]
      · rw [if_neg (asymm hbc), if_pos hbc] at h2
        simp at h2
    · subst hab
      rcases lt_trichotomy a c with hac | hac | hac
      · simp [hac]
      · subst hac
        rw [if_neg (lt_irrefl a), if_neg (lt_irrefl a)] at h1 h2 ⊢
        exact lexLe_trans as bs cs h1 h2
      · rw [if_neg (asymm hac), if_pos hac] at h2
        simp at h2
    · rw [if_neg (asymm hab), if_pos hab] at h1
      simp at h1

theorem userLe_total (k : String) (a b : User) : userLe k a b ∨ userLe k b a := by
  unfold userLe keyfn
  split_ifs <;>
    simp only [SortKey.leb, decide_eq_true_eq] <;>
    first
      | exact Nat.le_total _ _
      | exact le_total _ _
      | exact lexLe_total _ _

theorem userLe_trans (k : String) (a b c : User) :
    userLe k a b → userLe k b c → userLe k a c := by
  unfold userLe keyfn
  split_ifs <;>
    simp only [SortKey.leb, decide_eq_true_eq] <;>
    intro h1 h2 <;>
    first
      | exact le_trans h1 h2
      | exact lexLe_trans _ _ _ h1 h2

theorem userGe_total (k : String) (a b : User) : userGe k a b ∨ userGe k b a :=
  userLe_total k b a

theorem userGe_trans (k : String) (a b c : User) :
    userGe k a b → userGe k b c → userGe k a c :=
  fun h1 h2 => userLe_trans k c b a h2 h1

/-- Stability of the modelled `list.sort`: elements selected by a
predicate on which the order is indifferent keep exactly their
original relative positions. -/
theorem filter_insertionSort {α : Type} {r : α → α → Prop} [DecidableRel r]
    (p : α → Bool) (l : List α)
    (hp : ∀ a b, p a = true → p b = true → r a b) :
    (l.insertionSort r).filter p = l.filter p := by
  have h1 : (l.filter p).Pairwise r :=
    List.pairwise_of_forall_mem_list fun a ha b hb =>
      hp a b (List.of_mem_filter ha) (List.of_mem_filter hb)
  have h2 : List.Sublist (l.filter p) (l.insertionSort r) :=
    List.sublist_insertionSort h1 (List.filter_sublist l)
  have hff : (l.filter p).filter p = l.filter p :=
    List.filter_eq_self.mpr fun a ha => List.of_mem_filter ha
  have h3 := h2.filter p
  rw [hff] at h3
  have h4 : ((l.insertionSort r).filter p).length = (l.filter p).length :=
    ((List.perm_insertionSort r l).filter p).length_eq
  exact (h3.eq_of_length h4.symm).symm

theorem pySlice_of_nonneg {α : Type} (l : List α) (i j : ℤ) (hi : 0 ≤ i) (hj : 0 ≤ j) :
    pySlice l i j = (l.take j.toNat).drop i.toNat := by
  simp only [pySlice]
  rw [if_neg (by omega), if_neg (by omega)]
  have htake : l.take (min j (l.length : ℤ)).toNat = l.take j.toNat := by
    rw [List.take_eq_take]
    omega
  by_cases hc : i.toNat ≤ l.length
  · have hmin : (min i (l.length : ℤ)).toNat = i.toNat := by omega
    rw [htake, hmin]
  · have h1 : (l.take j.toNat).length ≤ (min i (l.length : ℤ)).toNat := by
      simp only [List.length_take]
      omega
    have h2 : (l.take j.toNat).length ≤ i.toNat := by
      simp only [List.length_take]
      omega
    rw [htake, List.drop_eq_nil_of_le h1, List.drop_eq_nil_of_le h2]

theorem pySlice_page {α : Type} (l : List α) (s L : ℤ) (hs : 0 ≤ s) (hL : 0 ≤ L) :
    pySlice l s (s + L) = (l.drop s.toNat).take L.toNat := by
  rw [pySlice_of_nonneg l s (s + L) hs (by omega), List.drop_take]
  congr 1
  omega

theorem pySlice_end_zero {α : Type} (l : List α) (i : ℤ) : pySlice l i 0 = [] := by
  simp only [pySlice]
  rw [if_neg (by omega : ¬ (0 : ℤ) < 0)]
  have hz : (min (0 : ℤ) (l.length : ℤ)).toNat = 0 := by omega
  rw [hz]
  simp

theorem concat_take_drop {α : Type} (L : ℕ) (hL : 0 < L) :
    ∀ (k : ℕ) (l : List α), l.length ≤ k * L →
      ((List.range k).flatMap fun i => (l.drop (i * L)).take L) = l := by
  intro k
  induction k with
  | zero =>
    intro l h
    simp only [Nat.zero_mul, Nat.le_zero] at h
    simp [List.length_eq_zero.mp h]
  | succ k ih =>
    intro l h
    rw [List.range_succ_eq_map]
    rw [List.flatMap_cons, List.flatMap_map]
    have hstep : (fun i => (l.drop (Nat.succ i * L)).take L)
        = fun i => ((l.drop L).drop (i * L)).take L := by
      funext i
      rw [List.drop_drop]
      congr 2
      rw [Nat.succ_mul]
      omega
    rw [hstep]
    rw [Nat.succ_mul] at h
    have hlen : (l.drop L).length ≤ k * L := by
      simp only [List.length_drop]
      omega
    rw [Nat.zero_mul, List.drop_zero, ih (l.drop L) hlen, List.take_append_drop]

theorem goodState_init (n : ℕ) (g : ℕ → RandomDraw) : goodState n g initState :=
  Or.inl ⟨rfl, rfl⟩

theorem generate_users_once_of_generated (n : ℕ) (g : ℕ → RandomDraw) (s : ServerState)
    (h : s.generated = true) : generate_users_once n g s = s := by
  unfold generate_users_once
  rw [if_pos h]

theorem generate_users_once_of_fresh (n : ℕ) (g : ℕ → RandomDraw) (s : ServerState)
    (h : s.generated = false) :
    generate_users_once n g s = { users := some (build_users n g), generated := true } := by
  unfold generate_users_once
  rw [h]
  simp

/-- The listing handler leaves the globals exactly as the initial
generation check left them (both match branches return `s1`). -/
theorem get_users_endpoint_snd (n : ℕ) (g : ℕ → RandomDraw) (s : ServerState) (p : Params) :
    (get_users_endpoint n g s p).2
      = if s.users = none then generate_users_once n g s else s := by
  simp only [get_users_endpoint]
  rcases hval : (if s.users = none then generate_users_once n g s else s).users with _ | d
  · rfl
  · rfl

theorem goodState_step (n : ℕ) (g : ℕ → RandomDraw) (s : ServerState) (op : Op)
    (h : goodState n g s) : goodState n g (step n g s op) := by
  cases op with
  | genOp =>
    rcases h with ⟨hu, hg⟩ | ⟨hu, hg⟩
    · right
      rw [show step n g s Op.genOp = generate_users_once n g s from rfl,
        generate_users_once_of_fresh n g s hg]
      exact ⟨rfl, rfl⟩
    · right
      rw [show step n g s Op.genOp = generate_users_once n g s from rfl,
        generate_users_once_of_generated n g s hg]
      exact ⟨hu, hg⟩
  | queryOp p =>
    rw [show step n g s (Op.queryOp p) = (get_users_endpoint n g s p).2 from rfl,
      get_users_endpoint_snd]
    rcases h with ⟨hu, hg⟩ | ⟨hu, hg⟩
    · right
      rw [if_pos hu, generate_users_once_of_fresh n g s hg]
      exact ⟨rfl, rfl⟩
    · right
      rw [if_neg (by rw [hu]; exact fun hc => Option.noConfusion hc)]
      exact ⟨hu, hg⟩
  | healthOp => exact h
  | countOp => exact h

theorem goodState_exec (n : ℕ) (g : ℕ → RandomDraw) (ops : List Op) (s : ServerState)
    (h : goodState n g s) : goodState n g (execOps n g s ops) := by
  induction ops generalizing s with
  | nil => exact h
  | cons op ops ih => exact ih (step n g s op) (goodState_step n g s op h)

theorem generated_step_mono (n : ℕ) (g : ℕ → RandomDraw) (s : ServerState) (op : Op)
    (h : s.generated = true) : (step n g s op).generated = true := by
  cases op with
  | genOp =>
    rw [show step n g s Op.genOp = generate_users_once n g s from rfl,
      generate_users_once_of_generated n g s h]
    exact h
  | queryOp p =>
    rw [show step n g s (Op.queryOp p) = (get_users_endpoint n g s p).2 from rfl,
      get_users_endpoint_snd]
    by_cases hu : s.users = none
    · rw [if_pos hu, generate_users_once_of_generated n g s h]
      exact h
    · rw [if_neg hu]
      exact h
  | healthOp => exact h
  | countOp => exact h

theorem generated_exec_mono (n : ℕ) (g : ℕ → RandomDraw) (ops : List Op) (s : ServerState)
    (h : s.generated = true) : (execOps n g s ops).generated = true := by
  induction ops generalizing s with
  | nil => exact h
  | cons op ops ih => exact ih (step n g s op) (generated_step_mono n g s op h)

theorem pySlice_sublist {α : Type} (l : List α) (i j : ℤ) :
    List.Sublist (pySlice l i j) l := by
  simp only [pySlice]
  exact (List.drop_sublist _ _).trans (List.take_sublist _ _)

theorem keyfn_score (u : User) : keyfn "score" u = .kRat u.score := rfl

theorem userLe_score_iff (a b : User) : userLe "score" a b ↔ a.score ≤ b.score := by
  show SortKey.leb (keyfn "score" a) (keyfn "score" b) = true ↔ _
  rw [keyfn_score, keyfn_score]
  show decide (a.score ≤ b.score) = true ↔ _
  exact decide_eq_true_iff

theorem userLe_lastMessageAt_iff (a b : User) :
    userLe "lastMessageAt" a b
      ↔ lexLe a.lastMessageAt.toList b.lastMessageAt.toList = true :=
  Iff.rfl

theorem workingUsers_sort (data : List User) (p : Params) (k : String)
    (hk : p.sort_by = some k) (hne : k ≠ "") :
    workingUsers data p
      = if parsedSortOrder p = "desc"
          then (filteredUsers data p).insertionSort (userGe k)
          else (filteredUsers data p).insertionSort (userLe k) := by
  unfold workingUsers
  have ha : optActive p.sort_by = true := by
    rw [hk]
    simp [optActive, hne]
  rw [ha, if_pos rfl, hk]
  show (if k = "" then filteredUsers data p
        else if parsedSortOrder p = "desc"
          then (filteredUsers data p).insertionSort (userGe k)
          else (filteredUsers data p).insertionSort (userLe k)) = _
  rw [if_neg hne]

theorem pairwise_workingUsers_asc (data : List User) (p : Params) (k : String)
    (hk : p.sort_by = some k) (hne : k ≠ "") (hso : parsedSortOrder p ≠ "desc") :
    (workingUsers data p).Pairwise (userLe k) := by
  rw [workingUsers_sort data p k hk hne, if_neg hso]
  haveI : IsTotal User (userLe k) := ⟨userLe_total k⟩
  haveI : IsTrans User (userLe k) := ⟨userLe_trans k⟩
  exact List.sorted_insertionSort (userLe k) _

theorem pairwise_workingUsers_desc (data : List User) (p : Params) (k : String)
    (hk : p.sort_by = some k) (hne : k ≠ "") (hso : parsedSortOrder p = "desc") :
    (workingUsers data p).Pairwise (userGe k) := by
  rw [workingUsers_sort data p k hk hne, if_pos hso]
  haveI : IsTotal User (userGe k) := ⟨userGe_total k⟩
  haveI : IsTrans User (userGe k) := ⟨userGe_trans k⟩
  exact List.sorted_insertionSort (userGe k) _

theorem items_sublist_working (n : ℕ) (data : List User) (p : Params) :
    List.Sublist (get_users_view n data p).items (workingUsers data p) :=
  pySlice_sublist _ _ _

/-! ## Claims -/

/-- C1: for every dataset view and every query with sort key `score`,
the returned page is ordered by score (ascending unless `desc` was
requested, descending otherwise), the sort is stable (records of equal
score keep their original relative order within the sorted working
set), and the spec's worked example — five records with scores
10, 30, 20, 30, 5 queried with `sort_by=score&sort_order=asc&page=1&limit=3`
— returns the records with ids 5, 1, 3 and `total = 5`. -/
theorem C1_score_sort (n : ℕ) (data : List User) (p : Params)
    (hk : p.sort_by = some "score") :
    (parsedSortOrder p ≠ "desc" →
      (get_users_view n data p).items.Chain' fun a b => a.score ≤ b.score) ∧
    (parsedSortOrder p = "desc" →
      (get_users_view n data p).items.Chain' fun a b => b.score ≤ a.score) ∧
    (∀ v : ℚ, ((workingUsers data p).filter fun u => decide (u.score = v))
      = (filteredUsers data p).filter fun u => decide (u.score = v)) ∧
    ((get_users_view 5 c1Data c1Params).items.map User.id = [5, 1, 3] ∧
      (get_users_view 5 c1Data c1Params).total = 5) := by
  have hne : "score" ≠ "" := by decide
  refine ⟨?_, ?_, ?_, by decide, by decide⟩
  · intro hso
    have hp := (pairwise_workingUsers_asc data p "score" hk hne hso).sublist
      (items_sublist_working n data p)
    exact (hp.imp fun h => (userLe_score_iff _ _).mp h).chain'
  · intro hso
    have hp := (pairwise_workingUsers_desc data p "score" hk hne hso).sublist
      (items_sublist_working n data p)
    exact (hp.imp fun h => (userLe_score_iff _ _).mp h).chain'
  · intro v
    rw [workingUsers_sort data p "score" hk hne]
    by_cases hso : parsedSortOrder p = "desc"
    · rw [if_pos hso]
      exact filter_insertionSort _ _ fun a b ha hb => by
        show userGe "score" a b
        have ha' := of_decide_eq_true ha
        have hb' := of_decide_eq_true hb
        exact (userLe_score_iff b a).mpr (by rw [ha', hb'])
    · rw [if_neg hso]
      exact filter_insertionSort _ _ fun a b ha hb => by
        have ha' := of_decide_eq_true ha
        have hb' := of_decide_eq_true hb
        exact (userLe_score_iff a b).mpr (by rw [ha', hb'])


/-- C2 counterexample: with raw search text `" z"` (a space then `z`),
the code strips the space and retains a record that contains `z` but
not `" z"` in any of the three fields, so the filtered set is not the
set of records containing the raw search text case-insensitively. -/
theorem C2_counterexample :
    apply_search_filter [lizUser] " z" = [lizUser] ∧
    List.filter (claimMatchRaw " z") [lizUser] = [] := by
  exact ⟨by decide, by decide⟩

/-- C2 amended: for a non-empty search text `S`, the filtered set is
exactly the order-preserving subsequence of records whose `name`,
`email` or `phone` contains the whitespace-stripped, lowercased `S`;
the reported `total` equals the size of the filtered set (post-filter,
pre-pagination), and an empty search string behaves exactly as no
search. -/
theorem C2_search_filter (n : ℕ) (data : List User) (p : Params) (s : String)
    (hs : p.search = some s) (hne : s ≠ "") :
    filteredUsers data p = data.filter (matchUser (lowerStr (stripStr s))) ∧
    (get_users_view n data p).total = (filteredUsers data p).length ∧
    ∀ q : Params, q.search = some "" →
      get_users_view n data q = get_users_view n data { q with search := none } := by
  have ha : optActive p.search = true := by
    rw [hs]
    simp [optActive, hne]
  refine ⟨?_, ?_, ?_⟩
  · unfold filteredUsers
    rw [ha, if_pos rfl, hs]
    show apply_search_filter data s = _
    unfold apply_search_filter
    rw [if_neg hne]
  · show totalField n data p = _
    unfold totalField
    rw [ha, if_pos rfl]
  · intro q hq
    have hq' : optActive q.search = false := by
      rw [hq]
      rfl
    have hq2 : optActive ({ q with search := none } : Params).search = false := rfl
    unfold get_users_view totalField workingUsers filteredUsers
    rw [hq', hq2]
    rfl

/-- C4 counterexample: on two records whose timestamp texts are in
strictly decreasing order, querying with `sort_by=lastActivityAt`
returns them in their original order, not ordered by timestamp: the
key `lastActivityAt` does not exist on the records (the field is named
`lastMessageAt`), so the sort compares constant empty keys. -/
theorem C4_counterexample :
    (get_users_view 2 c4Data c4Params).items.map User.id = [1, 2] ∧
    ¬ ((get_users_view 2 c4Data c4Params).items.Chain'
        fun a b => lexLe a.lastMessageAt.toList b.lastMessageAt.toList = true) := by
  have hitems : (get_users_view 2 c4Data c4Params).items = c4Data := by decide
  refine ⟨by decide, ?_⟩
  intro h
  rw [hitems] at h
  exact absurd (List.chain'_cons.mp h).1 (by decide)

/-- C4 amended: `lastActivityAt` is not a supported sort key — sorting
by it compares the constant fallback key `""` and leaves every working
set in its original order.  The supported timestamp key is
`lastMessageAt`, which orders records lexicographically by their
ISO-8601 timestamp text, ascending unless descending is requested. -/
theorem C4_lastMessageAt_sort (data : List User) (so : String) (p : Params)
    (hk : p.sort_by = some "lastMessageAt") :
    apply_sort data (some "lastActivityAt") so = data ∧
    (parsedSortOrder p ≠ "desc" → ((workingUsers data p).Chain'
        fun a b => lexLe a.lastMessageAt.toList b.lastMessageAt.toList = true)) ∧
    (parsedSortOrder p = "desc" → ((workingUsers data p).Chain'
        fun a b => lexLe b.lastMessageAt.toList a.lastMessageAt.toList = true)) := by
  have hne : "lastMessageAt" ≠ "" := by decide
  refine ⟨?_, ?_, ?_⟩
  · have hle : ∀ a b : User, userLe "lastActivityAt" a b := fun a b => rfl
    have hge : ∀ a b : User, userGe "lastActivityAt" a b := fun a b => rfl
    show (if "lastActivityAt" = "" then data
          else if so = "desc" then data.insertionSort (userGe "lastActivityAt")
          else data.insertionSort (userLe "lastActivityAt")) = data
    rw [if_neg (by decide : ¬ ("lastActivityAt" = ""))]
    by_cases hso : so = "desc"
    · rw [if_pos hso]
      exact List.Sorted.insertionSort_eq
        (List.pairwise_of_forall_mem_list fun a _ b _ => hge a b)
    · rw [if_neg hso]
      exact List.Sorted.insertionSort_eq
        (List.pairwise_of_forall_mem_list fun a _ b _ => hle a b)
  · intro hso
    have hp := pairwise_workingUsers_asc data p "lastMessageAt" hk hne hso
    exact (hp.imp fun h => (userLe_lastMessageAt_iff _ _).mp h).chain'
  · intro hso
    have hp := pairwise_workingUsers_desc data p "lastMessageAt" hk hne hso
    exact (hp.imp fun h => (userLe_lastMessageAt_iff _ _).mp h).chain'

/-- C5 counterexample: the record factory's JSON keys are not the
claimed ones — the timestamp field is named `lastMessageAt` (not
`lastActivityAt`) and the avatar field is named `avatar` (not
`avatarUrl`). -/
theorem C5_counterexample :
    (userJson (generate_user draw1 1)).map Prod.fst ≠
      ["id", "name", "phone", "email", "score", "lastActivityAt",
       "addedBy", "avatarUrl"] := by
  decide

/-- C5 amended: every record produced by the record factory serializes
to exactly the JSON object with keys `id` (int), `name`, `phone`,
`email` (strings), `score` (number), `lastMessageAt` (ISO-8601 text),
`addedBy` and `avatar` (strings), in that order. -/
theorem C5_record_shape (d : RandomDraw) (uid : ℕ) :
    userJson (generate_user d uid) =
      [("id", JValue.jint uid), ("name", JValue.jstr d.nameDraw),
       ("phone", JValue.jstr (random_phone d)),
       ("email", JValue.jstr (random_email d d.nameDraw uid)),
       ("score", JValue.jnum d.scoreDraw),
       ("lastMessageAt", JValue.jstr d.lastMessageDraw),
       ("addedBy", JValue.jstr d.addedByDraw),
       ("avatar", JValue.jstr (random_avatar uid))] := rfl


theorem parsedLimit_bounds (p : Params) : 0 < parsedLimit p ∧ parsedLimit p ≤ 1000 := by
  simp only [parsedLimit]
  split_ifs with h
  · exact ⟨by norm_num, by norm_num⟩
  · omega

theorem toNat_mul_nonneg (i : ℕ) (L : ℤ) (hL : 0 ≤ L) :
    ((i : ℤ) * L).toNat = i * L.toNat := by
  rcases Int.eq_ofNat_of_zero_le hL with ⟨m, rfl⟩
  rw [← Int.natCast_mul, Int.toNat_ofNat, Int.toNat_ofNat]

/-- C3: for every working set, every page `P ≥ 1` and the (validated)
page size `L = parsedLimit p ∈ (0, 1000]`, the returned items are the
slice `[(P-1)·L, (P-1)·L + L)` clamped to the set's bounds, hence
exactly `min(L, max(0, M - (P-1)·L))` items; a start index at or past
`M` yields an empty page rather than an error; and concatenating the
pages `P = 1, 2, ...` in order reproduces the full filtered, sorted
sequence, each record exactly once. -/
theorem C3_pagination (n : ℕ) (data : List User) (p : Params) (P : ℤ)
    (hP : parsedPage p = P) (hP1 : 1 ≤ P) :
    (get_users_view n data p).items
      = ((workingUsers data p).drop ((P - 1) * parsedLimit p).toNat).take
          (parsedLimit p).toNat ∧
    (get_users_view n data p).items.length
      = min (parsedLimit p).toNat
          ((workingUsers data p).length - ((P - 1) * parsedLimit p).toNat) ∧
    ((workingUsers data p).length ≤ ((P - 1) * parsedLimit p).toNat →
      (get_users_view n data p).items = []) ∧
    (∀ (qs : ℕ → Params) (k : ℕ),
      (∀ i, i < k → workingUsers data (qs i) = workingUsers data p ∧
        parsedPage (qs i) = (i : ℤ) + 1 ∧ parsedLimit (qs i) = parsedLimit p) →
      (workingUsers data p).length ≤ k * (parsedLimit p).toNat →
      ((List.range k).flatMap fun i => (get_users_view n data (qs i)).items)
        = workingUsers data p) := by
  obtain ⟨hL0, hL1⟩ := parsedLimit_bounds p
  have hs0 : (0 : ℤ) ≤ (P - 1) * parsedLimit p := mul_nonneg (by omega) (by omega)
  have e1 : (get_users_view n data p).items
      = ((workingUsers data p).drop ((P - 1) * parsedLimit p).toNat).take
          (parsedLimit p).toNat := by
    show pySlice (workingUsers data p) ((parsedPage p - 1) * parsedLimit p)
        ((parsedPage p - 1) * parsedLimit p + parsedLimit p) = _
    rw [hP]
    exact pySlice_page _ _ _ hs0 (by omega)
  refine ⟨e1, ?_, ?_, ?_⟩
  · rw [e1, List.length_take, List.length_drop]
  · intro h
    rw [e1, List.drop_eq_nil_of_le h, List.take_nil]
  · intro qs k hqs hlen
    have hpages : ∀ i, i < k → (get_users_view n data (qs i)).items
        = ((workingUsers data p).drop (i * (parsedLimit p).toNat)).take
            (parsedLimit p).toNat := by
      intro i hik
      obtain ⟨hw, hpg, hlim⟩ := hqs i hik
      have hqL : (0 : ℤ) ≤ parsedLimit (qs i) := le_of_lt (parsedLimit_bounds (qs i)).1
      have e2 : (get_users_view n data (qs i)).items
          = ((workingUsers data (qs i)).drop
              ((((i : ℤ) + 1) - 1) * parsedLimit (qs i)).toNat).take
              (parsedLimit (qs i)).toNat := by
        show pySlice (workingUsers data (qs i))
            ((parsedPage (qs i) - 1) * parsedLimit (qs i))
            ((parsedPage (qs i) - 1) * parsedLimit (qs i) + parsedLimit (qs i)) = _
        rw [hpg]
        exact pySlice_page _ _ _ (mul_nonneg (by omega) hqL) (by omega)
      rw [e2, hw, hlim]
      have harith : (((i : ℤ) + 1) - 1) * parsedLimit p = (i : ℤ) * parsedLimit p := by
        ring
      rw [harith, toNat_mul_nonneg i (parsedLimit p) (by omega)]
    have hcongr : ((List.range k).flatMap fun i => (get_users_view n data (qs i)).items)
        = (List.range k).flatMap fun i =>
            ((workingUsers data p).drop (i * (parsedLimit p).toNat)).take
              (parsedLimit p).toNat := by
      unfold List.flatMap
      congr 1
      exact List.map_congr_left fun i hi => hpages i (List.mem_range.mp hi)
    rw [hcongr]
    exact concat_take_drop (parsedLimit p).toNat (by omega) k _ hlen


/-- C6 counterexample: on a one-record dataset, `page=0` answers an
empty page and echoes `page = 0`, while `page=1` answers the record:
a page parameter of 0 is not normalized to the default page 1, and the
two responses differ. -/
theorem C6_counterexample :
    (get_users_view 1 [c6User] { page := some "0" }).items = [] ∧
    (get_users_view 1 [c6User] { page := some "1" }).items = [c6User] ∧
    (get_users_view 1 [c6User] { page := some "0" }).page = 0 := by
  exact ⟨by decide, by decide, by decide⟩

/-- C6 amended: a limit parameter that parses to a value outside
`(0, 1000]` is reset to the default 30, and the effective limit always
lies in `(0, 1000]`; the page parameter is not normalized — a parsed
page of 0 flows into the slice computation as a negative start bound
under Python slice semantics, which always yields an empty page (the
response echoes `page = 0` and is in general not the `page = 1`
response). -/
theorem C6_param_normalization (n : ℕ) (data : List User) (p : Params) :
    (∀ s l0, p.limit = some s → pyInt? s = some l0 → (l0 ≤ 0 ∨ 1000 < l0) →
      parsedLimit p = 30) ∧
    (0 < parsedLimit p ∧ parsedLimit p ≤ 1000) ∧
    (parsedPage p = 0 →
      (get_users_view n data p).items = [] ∧ (get_users_view n data p).page = 0) := by
  refine ⟨?_, parsedLimit_bounds p, ?_⟩
  · intro s l0 hs hp hout
    simp only [parsedLimit]
    rw [hs]
    show (if (pyInt? s).getD 30 ≤ 0 ∨ (pyInt? s).getD 30 > 1000 then (30 : ℤ)
          else (pyInt? s).getD 30) = 30
    rw [hp, Option.getD_some, if_pos hout]
  · intro h0
    constructor
    · show pySlice (workingUsers data p) ((parsedPage p - 1) * parsedLimit p)
          ((parsedPage p - 1) * parsedLimit p + parsedLimit p) = []
      rw [h0]
      have hz : ((0 : ℤ) - 1) * parsedLimit p + parsedLimit p = 0 := by ring
      rw [hz]
      exact pySlice_end_zero _ _
    · exact h0

/-- C7: a page or limit parameter that `int()` cannot parse is replaced
by its default (page 1, limit 30) and the request is answered normally,
identically to a request without those parameters; it is never an
error. -/
theorem C7_malformed_params (n : ℕ) (data : List User) (p : Params) :
    (∀ s, p.page = some s → pyInt? s = none → parsedPage p = 1) ∧
    (∀ s, p.limit = some s → pyInt? s = none → parsedLimit p = 30) ∧
    (∀ s t, p.page = some s → pyInt? s = none → p.limit = some t → pyInt? t = none →
      get_users_view n data p
        = get_users_view n data { p with page := none, limit := none }) := by
  refine ⟨?_, ?_, ?_⟩
  · intro s hs hp
    simp only [parsedPage]
    rw [hs]
    show (pyInt? s).getD 1 = 1
    rw [hp]
    rfl
  · intro s hs hp
    simp only [parsedLimit]
    rw [hs]
    show (if (pyInt? s).getD 30 ≤ 0 ∨ (pyInt? s).getD 30 > 1000 then (30 : ℤ)
          else (pyInt? s).getD 30) = 30
    rw [hp]
    rfl
  · intro s t hs hp ht hq
    have h1 : parsedPage p = 1 := by
      simp only [parsedPage]
      rw [hs]
      show (pyInt? s).getD 1 = 1
      rw [hp]
      rfl
    have h2 : parsedLimit p = 30 := by
      simp only [parsedLimit]
      rw [ht]
      show (if (pyInt? t).getD 30 ≤ 0 ∨ (pyInt? t).getD 30 > 1000 then (30 : ℤ)
            else (pyInt? t).getD 30) = 30
      rw [hq]
      rfl
    simp only [get_users_view]
    rw [h1, h2]
    rfl

/-- C8: along every execution from process start, the shared dataset
variable is either `None` (generation not finished) or a complete list
of exactly the configured number of records in which slot `i` holds the
record with id `i + 1`; the global is only ever assigned the fully
built list, so no query observes a partially populated dataset. -/
theorem C8_dataset_invariant (n : ℕ) (g : ℕ → RandomDraw) (ops : List Op) :
    (execOps n g initState ops).users = none ∨
    ∃ l : List User, (execOps n g initState ops).users = some l ∧ l.length = n ∧
      ∀ i (h : i < l.length), (l.get ⟨i, h⟩).id = i + 1 := by
  rcases goodState_exec n g ops initState (goodState_init n g) with ⟨hu, _⟩ | ⟨hu, _⟩
  · exact Or.inl hu
  · refine Or.inr ⟨build_users n g, hu, by simp [build_users], ?_⟩
    intro i h
    have hi : i < n := by
      have := h
      simp [build_users] at this
      exact this
    rw [List.get_eq_getElem]
    simp [build_users, generate_user]

/-- C9: a query request never mutates the shared dataset: run against a
generated dataset, the listing handler returns the module globals
exactly as they were (the code sorts only the fresh copy
`list(filtered)`, never the global list). -/
theorem C9_query_no_mutation (n : ℕ) (g : ℕ → RandomDraw) (s : ServerState)
    (p : Params) (l : List User) (h : s.users = some l) :
    (get_users_endpoint n g s p).2 = s := by
  rw [get_users_endpoint_snd]
  rw [if_neg (by rw [h]; exact fun hc => Option.noConfusion hc)]

/-- C10: the readiness endpoint reports `generating` while the dataset
is not yet published, `ready` once generation is complete, never
reverts from `ready` in any execution, and always reports
`total_expected` equal to the configured target. -/
theorem C10_readiness (n : ℕ) (g : ℕ → RandomDraw) (ops more : List Op) :
    (health n (execOps n g initState ops)).2 = n ∧
    ((execOps n g initState ops).users = none →
      (health n (execOps n g initState ops)).1 = "generating") ∧
    ((execOps n g initState ops).generated = true →
      (health n (execOps n g initState ops)).1 = "ready") ∧
    ((health n (execOps n g initState ops)).1 = "ready" →
      (health n (execOps n g (execOps n g initState ops) more)).1 = "ready") := by
  refine ⟨rfl, ?_, ?_, ?_⟩
  · intro hu
    rcases goodState_exec n g ops initState (goodState_init n g) with ⟨_, hg⟩ | ⟨hu2, _⟩
    · show (if (execOps n g initState ops).generated then "ready" else "generating") = _
      rw [hg]
      rfl
    · rw [hu] at hu2
      exact Option.noConfusion hu2
  · intro hg
    show (if (execOps n g initState ops).generated then "ready" else "generating") = _
    rw [hg]
    rfl
  · intro hr
    have hg : (execOps n g initState ops).generated = true := by
      cases hb : (execOps n g initState ops).generated
      · exfalso
        have : (health n (execOps n g initState ops)).1 = "generating" := by
          show (if (execOps n g initState ops).generated then "ready" else "generating") = _
          rw [hb]
          rfl
        rw [this] at hr
        exact absurd hr (by decide)
      · rfl
    have hm := generated_exec_mono n g more _ hg
    show (if (execOps n g (execOps n g initState ops) more).generated
        then "ready" else "generating") = _
    rw [hm]
    rfl

/-! ## Witnesses -/

/-- Witness for C1 at the spec's worked example. -/
theorem C1_witness :
    parsedSortOrder c1Params ≠ "desc" ∧
    ((get_users_view 5 c1Data c1Params).items.Chain' fun a b => a.score ≤ b.score) :=
  ⟨by decide, (C1_score_sort 5 c1Data c1Params rfl).1 (by decide)⟩

/-- Witness for C2 on a one-record dataset and search text `liz`. -/
theorem C2_witness :
    filteredUsers [lizUser] { search := some "liz" }
      = [lizUser].filter (matchUser (lowerStr (stripStr "liz"))) ∧
    (get_users_view 1 [lizUser] { search := some "liz" }).total
      = (filteredUsers [lizUser] { search := some "liz" }).length :=
  ⟨(C2_search_filter 1 [lizUser] { search := some "liz" } "liz" rfl (by decide)).1,
   (C2_search_filter 1 [lizUser] { search := some "liz" } "liz" rfl (by decide)).2.1⟩

/-- Witness for C3: two pages of size one concatenate to the whole
two-record working set. -/
theorem C3_witness :
    ((List.range 2).flatMap fun i =>
      (get_users_view 2 [c6User, lizUser]
        (if i = 0 then ({ page := some "1", limit := some "1" } : Params)
         else { page := some "2", limit := some "1" })).items)
      = workingUsers [c6User, lizUser] { page := some "1", limit := some "1" } :=
  (C3_pagination 2 [c6User, lizUser] { page := some "1", limit := some "1" } 1
      (by decide) (by decide)).2.2.2
    (fun i => if i = 0 then { page := some "1", limit := some "1" }
      else { page := some "2", limit := some "1" })
    2 (by decide) (by decide)

/-- Witness for C4 on the two-record dataset with decreasing
timestamps. -/
theorem C4_witness :
    apply_sort c4Data (some "lastActivityAt") "asc" = c4Data ∧
    ((workingUsers c4Data { sort_by := some "lastMessageAt" }).Chain'
      fun a b => lexLe a.lastMessageAt.toList b.lastMessageAt.toList = true) :=
  ⟨(C4_lastMessageAt_sort c4Data "asc" { sort_by := some "lastMessageAt" } rfl).1,
   (C4_lastMessageAt_sort c4Data "asc" { sort_by := some "lastMessageAt" } rfl).2.1
     (by decide)⟩

/-- Witness for C6: an out-of-range limit of 2000 resets to 30, and
page 0 answers an empty page. -/
theorem C6_witness :
    parsedLimit { limit := some "2000", page := some "0" } = 30 ∧
    (get_users_view 1 [c6User] { limit := some "2000", page := some "0" }).items = [] :=
  ⟨(C6_param_normalization 1 [c6User] { limit := some "2000", page := some "0" }).1
      "2000" 2000 rfl (by decide) (by decide),
   ((C6_param_normalization 1 [c6User] { limit := some "2000", page := some "0" }).2.2
      (by decide)).1⟩

/-- Witness for C7: unparseable `page=abc&limit=12x` answers exactly
like the parameterless request. -/
theorem C7_witness :
    parsedPage { page := some "abc", limit := some "12x" } = 1 ∧
    get_users_view 1 [c6User] { page := some "abc", limit := some "12x" }
      = get_users_view 1 [c6User] { page := none, limit := none } :=
  ⟨(C7_malformed_params 1 [c6User] { page := some "abc", limit := some "12x" }).1
      "abc" rfl (by decide),
   (C7_malformed_params 1 [c6User] { page := some "abc", limit := some "12x" }).2.2
      "abc" "12x" rfl (by decide) rfl (by decide)⟩

/-- Witness for C9 on a generated one-record state. -/
theorem C9_witness :
    (get_users_endpoint 1 (fun _ => draw1)
        { users := some [c6User], generated := true } { page := some "1" }).2
      = { users := some [c6User], generated := true } :=
  C9_query_no_mutation 1 (fun _ => draw1)
    { users := some [c6User], generated := true } { page := some "1" } [c6User] rfl

/-- Witness for C10: after one generation action the probe reports
ready and stays ready across a further health probe. -/
theorem C10_witness :
    (health 2 (execOps 2 (fun _ => draw1) initState [Op.genOp])).1 = "ready" ∧
    (health 2 (execOps 2 (fun _ => draw1)
        (execOps 2 (fun _ => draw1) initState [Op.genOp]) [Op.healthOp])).1 = "ready" :=
  ⟨by decide,
   (C10_readiness 2 (fun _ => draw1) [Op.genOp] [Op.healthOp]).2.2.2 (by decide)⟩

end Backend
